import Mathlib

/-!
Verification of the femini-playwright worker system: a shallow embedding of
`credential_manager.py`, `queue_manager.py`, `browser_manager.py` and the
relevant parts of `config.py`, together with theorems about the credential
allocator, the request queue, the session pool and their invariants.

Python integers are embedded as `Int`, event-loop timestamps and durations
(Python floats) as `Rat`, dictionaries keyed by credential key as total
functions `String → Int` (they are initialised with every configured key
mapped to `0`) or as association lists where insertion order matters.
-/

namespace Femini

/-- Python truthiness of an `Optional[str]` value: `None` and `""` are falsy. -/
def strTruthy : Option String → Bool
  | none => false
  | some s => !(s == "")

/-- `config.Credential`: a single Google credential. -/
structure Credential where
  email : String
  password : String
  key : String
deriving DecidableEq, Repr

/-- The fields of `config.Settings` that the managers consult, with the
defaults from `config.py`. -/
structure Settings where
  credential_mode : String := "random"
  default_credential_index : Int := 0
  max_concurrent_per_credential : Int := 1
  max_total_concurrent : Int := 3
  max_requests_per_context : Int := 100
deriving DecidableEq, Repr

/-- Pointwise update of a map embedded as a function. -/
def updateMap (m : String → Int) (k : String) (v : Int) : String → Int :=
  fun x => if x = k then v else m x

/-- Python list indexing `xs[i]` returning `None` instead of raising
`IndexError`; negative indices count from the end, as in Python. -/
def pyListGet (xs : List Credential) (i : Int) : Option Credential :=
  if 0 ≤ i then xs.get? i.toNat
  else if 0 ≤ i + xs.length then xs.get? (i + xs.length).toNat
  else none

/-- Mutable state of `CredentialManager`. -/
structure CredentialManagerState where
  credentials : List Credential
  mode : String
  usage_count : String → Int
  active_tasks : String → Int
  round_robin_index : Nat

/-- `CredentialManager.__init__`: both counters start at `0` for every key. -/
def initCredentialManager (credentials : List Credential) (mode : String) :
    CredentialManagerState :=
  { credentials := credentials
    mode := mode
    usage_count := fun _ => 0
    active_tasks := fun _ => 0
    round_robin_index := 0 }

/-- `CredentialManager.mark_busy`: unconditionally increments the
active-task counter of the given key. -/
def mark_busy (st : CredentialManagerState) (credential_key : String) :
    CredentialManagerState :=
  { st with active_tasks :=
      updateMap st.active_tasks credential_key (st.active_tasks credential_key + 1) }

/-- `CredentialManager.mark_free`: decrements the active-task counter of the
given key only when it is strictly positive. -/
def mark_free (st : CredentialManagerState) (credential_key : String) :
    CredentialManagerState :=
  if st.active_tasks credential_key > 0 then
    { st with active_tasks :=
        updateMap st.active_tasks credential_key (st.active_tasks credential_key - 1) }
  else st

/-- The local helper `has_capacity` inside
`CredentialManager.get_available_credential`. -/
def has_capacity (s : Settings) (st : CredentialManagerState) (cred : Credential) : Bool :=
  decide (st.active_tasks cred.key < s.max_concurrent_per_credential)

/-- `next((c for c in self.credentials if c.key == specific_key), None)`. -/
def findCredential (credentials : List Credential) (k : String) : Option Credential :=
  credentials.find? (fun c => c.key == k)

/-- The `for _ in range(len(self.credentials))` loop of the round-robin branch
of `get_available_credential`: starting from the current round-robin index,
tries each credential in order (incrementing the index each time) until one
whose key is in `availKeys` is found; the fuel is `len(self.credentials)`.
Returns the found credential (if any) and the final index. -/
def roundRobinScan (credentials : List Credential) (availKeys : List String) :
    Nat → Nat → Option Credential × Nat
  | 0, rr => (none, rr)
  | Nat.succ fuel, rr =>
    match credentials.get? (rr % credentials.length) with
    | none => (none, rr + 1)
    | some candidate =>
      if availKeys.contains candidate.key then (some candidate, rr + 1)
      else roundRobinScan credentials availKeys fuel (rr + 1)

/-- `CredentialManager.get_available_credential`.  `rand` is the oracle for
`random.choice` over the `available` list (taken modulo its length).  The
returned state differs from the input state only in the round-robin index
(the only field this method mutates). -/
def get_available_credential (s : Settings) (st : CredentialManagerState) (rand : Nat)
    (mode_override : Option String) (specific_key : Option String) :
    Option Credential × CredentialManagerState :=
  -- Strategy 1: specific key requested (`if specific_key:` — Python truthiness)
  if strTruthy specific_key then
    match findCredential st.credentials (specific_key.getD "") with
    | none => (none, st)
    | some credential =>
      if has_capacity s st credential then (some credential, st) else (none, st)
  else
    -- Strategy 2: mode override or configured mode
    let mode := if strTruthy mode_override then mode_override.getD "" else st.mode
    let available := st.credentials.filter (fun c => has_capacity s st c)
    match available with
    | [] => (none, st)
    | a :: rest =>
      if mode == "random" then
        (some ((a :: rest).getD (rand % (rest.length + 1)) a), st)
      else if mode == "least_busy" then
        -- Python `min` keeps the first element among ties
        (some (rest.foldl
          (fun best c =>
            if st.active_tasks c.key < st.active_tasks best.key then c else best) a), st)
      else if mode == "round_robin" then
        match roundRobinScan st.credentials ((a :: rest).map (fun c => c.key))
            st.credentials.length st.round_robin_index with
        | (some candidate, rr) => (some candidate, { st with round_robin_index := rr })
        | (none, rr) => (some a, { st with round_robin_index := rr })  -- fallback `available[0]`
      else
        -- default mode
        let availKeys := (a :: rest).map (fun c => c.key)
        match pyListGet st.credentials s.default_credential_index with
        | some default_cred =>
          if availKeys.contains default_cred.key then (some default_cred, st)
          else
            -- second lookup: same valid index yields the same credential,
            -- which was just found unavailable, so the method returns None
            (none, st)
        | none =>
          -- IndexError: `target_cred` falls back to `self.credentials[0]`,
          -- which exists because `available` (a sublist) is non-empty
          match pyListGet st.credentials 0 with
          | some target_cred =>
            (if availKeys.contains target_cred.key then some target_cred else none, st)
          | none => (none, st)

/-! ## Queue manager (`queue_manager.py`) -/

/-- `queue_manager.Request` (payload fields carrying no queue logic are kept
as plain data; the `metadata` dict is omitted — no modelled code reads it). -/
structure Request where
  task_id : String
  prompt : String
  is_image : Bool := false
  force_json : Bool := false
  force_text : Bool := false
  reference_image_name : Option String := none
  chat_id : Option String := none
  account_id : Option String := none
  credential_mode : Option String := none
  return_image_data : Bool := false
  filename_suffix : String := ""
  save_dir : Option String := none
  download : Bool := false
deriving DecidableEq, Repr

/-- The result dict produced by `GeminiClient.process_request` as read by the
worker: only the `success` and `error` entries are consulted. -/
structure GeminiResult where
  success : Bool := false
  error : Option String := none
deriving DecidableEq, Repr

/-- `queue_manager.TaskResult`. `processing_time` is a duration in seconds
(`loop.time() - start_time`), recorded as `Rat`. -/
structure TaskResult where
  task_id : String
  success : Bool
  result : Option GeminiResult := none
  error : Option String := none
  credential_key : Option String := none
  processing_time : Option Rat := none
deriving DecidableEq, Repr

/-- Python dict assignment `d[k] = v` on an insertion-ordered dict embedded as
an association list: overwrite in place if the key exists, else append. -/
def dictSet (d : List (String × TaskResult)) (k : String) (v : TaskResult) :
    List (String × TaskResult) :=
  if d.any (fun p => p.1 == k) then
    d.map (fun p => if p.1 == k then (k, v) else p)
  else d ++ [(k, v)]

/-- Python `d.get(k)` on the embedded dict. -/
def dictGet (d : List (String × TaskResult)) (k : String) : Option TaskResult :=
  (d.find? (fun p => p.1 == k)).map (fun p => p.2)

/-- Mutable state of `QueueManager` (workers and locks excluded; the queue is
the FIFO of pending `(task_id, request)` pairs). -/
structure QueueManagerState where
  queue : List (String × Request)
  task_results : List (String × TaskResult)
  credential_usage : String → Int
  total_enqueued : Int
  total_processed : Int
  total_failed : Int

/-- `QueueManager.__init__`: empty queue, no results, zeroed stats. -/
def initQueueManager : QueueManagerState :=
  { queue := []
    task_results := []
    credential_usage := fun _ => 0
    total_enqueued := 0
    total_processed := 0
    total_failed := 0 }

/-- `QueueManager.enqueue_request`: puts the request on the queue, stores a
placeholder `TaskResult(task_id, success=False, result=None,
credential_key=None)`, increments `total_enqueued`, and returns the task id.
No validation of any kind is performed on the request. -/
def enqueue_request (st : QueueManagerState) (request : Request) :
    String × QueueManagerState :=
  let task_id := request.task_id
  (task_id,
    { st with
      queue := st.queue ++ [(task_id, request)]
      task_results := dictSet st.task_results task_id
        { task_id := task_id, success := false, result := none, credential_key := none }
      total_enqueued := st.total_enqueued + 1 })

/-- `QueueManager.get_result`: `self.task_results.get(task_id)`. -/
def get_result (st : QueueManagerState) (task_id : String) : Option TaskResult :=
  dictGet st.task_results task_id

/-- The readiness test of `QueueManager.wait_for_result` (and of
`FeminiApp.get_completed_result`): `result.success or result.error`, with
Python truthiness for the optional error string. -/
def resultReady (r : TaskResult) : Bool :=
  r.success || strTruthy r.error

/-- The `pending_tasks` entry of `QueueManager.get_stats`:
`list(self.task_results.keys())`. -/
def pending_tasks (st : QueueManagerState) : List String :=
  st.task_results.map (fun p => p.1)

/-- The removal condition of `QueueManager.clear_completed_tasks`:
`result.processing_time and (current_time - result.processing_time) > max_age`.
Note that it subtracts the *duration* `processing_time` from the current
event-loop time (and that a duration of exactly `0.0` is falsy). -/
def purgeCondition (current_time max_age : Rat) (r : TaskResult) : Bool :=
  match r.processing_time with
  | none => false
  | some d => if d == 0 then false else decide (current_time - d > max_age)

/-- `QueueManager.clear_completed_tasks`: collects every stored result whose
purge condition holds and deletes it. -/
def clear_completed_tasks (st : QueueManagerState) (current_time : Rat)
    (max_age : Rat := 3600) : QueueManagerState :=
  { st with task_results :=
      st.task_results.filter (fun p => !purgeCondition current_time max_age p.2) }

/-! ## The worker's credential-acquisition loop (`QueueManager._worker`) -/

/-- The attributes defined by class `CredentialManager` in
`credential_manager.py` (methods and the fields set in `__init__`). -/
def credentialManagerAttrs : List String :=
  ["credentials", "mode", "usage_count", "active_tasks", "_lock",
   "_round_robin_index", "get_credential", "_random_select",
   "_round_robin_select", "_least_busy_select", "_default_select",
   "mark_busy", "mark_free", "get_stats", "get_available_credential"]

/-- The message of the `AttributeError` raised when `_worker` calls the
undefined `CredentialManager.wait_for_available`. -/
def waitForAvailableError : String :=
  "AttributeError: CredentialManager object has no attribute wait_for_available"

/-- The call `self.cred_mgr.wait_for_available()` in `_worker`: Python
attribute lookup on `CredentialManager` raises `AttributeError` when the
class defines no such attribute. -/
def call_wait_for_available : Except String Unit :=
  if credentialManagerAttrs.contains "wait_for_available" then Except.ok ()
  else Except.error waitForAvailableError

/-- Outcome of one pass of the worker's acquisition loop for a picked task. -/
inductive AcquireOutcome where
  /-- `get_available_credential` returned a credential; the worker proceeds. -/
  | acquired (c : Credential)
  /-- The worker parked on the availability signal and will retry. -/
  | waits
  /-- An exception escaped the loop towards the worker's generic handler. -/
  | raised (msg : String)
deriving DecidableEq, Repr

/-- One iteration of the `while self.running` acquisition loop in `_worker`
(lines 157-169 of `queue_manager.py`): call `get_available_credential`; on
`None`, log and call `self.cred_mgr.wait_for_available()`. -/
def worker_acquire_iteration (s : Settings) (st : CredentialManagerState) (rand : Nat)
    (request : Request) : AcquireOutcome :=
  match (get_available_credential s st rand request.credential_mode request.account_id).1 with
  | some c => AcquireOutcome.acquired c
  | none =>
    match call_wait_for_available with
    | Except.ok _ => AcquireOutcome.waits
    | Except.error msg => AcquireOutcome.raised msg

/-- The `except Exception` handler of `_worker` (lines 232-245): stores a
failed `TaskResult` carrying the exception message and increments
`total_failed`. -/
def worker_store_exception (st : QueueManagerState) (task_id : String) (msg : String)
    (processing_time : Rat) : QueueManagerState :=
  { st with
    task_results := dictSet st.task_results task_id
      { task_id := task_id, success := false, error := some msg
        processing_time := some processing_time }
    total_failed := st.total_failed + 1 }

/-- The worker's handling of one picked task, restricted to the acquisition
phase: when the acquisition loop raises, the task is recorded as failed; when
it acquires, the worker goes on to process (the processing itself is outside
this definition's scope). -/
inductive TaskHandling where
  | processing (c : Credential) (st : QueueManagerState)
  | stillWaiting (st : QueueManagerState)
  | recordedFailed (st : QueueManagerState)

/-- `_worker` from picking a task to either entering processing, parking on
the (missing) availability signal, or recording a failure via the generic
exception handler. -/
def worker_handle_acquisition (s : Settings) (cm : CredentialManagerState) (rand : Nat)
    (qm : QueueManagerState) (task_id : String) (request : Request)
    (processing_time : Rat) : TaskHandling :=
  match worker_acquire_iteration s cm rand request with
  | AcquireOutcome.acquired c => TaskHandling.processing c qm
  | AcquireOutcome.waits => TaskHandling.stillWaiting qm
  | AcquireOutcome.raised msg =>
    TaskHandling.recordedFailed (worker_store_exception qm task_id msg processing_time)

/-! ## Browser manager (`browser_manager.py`) -/

/-- The semaphore-creation loop of `BrowserManager.initialize`:
`self.semaphores[cred.key] = asyncio.Semaphore(1)` for each credential.  Each
pair records a credential key and the capacity of its semaphore. -/
def init_semaphores (credentials : List Credential) : List (String × Int) :=
  credentials.map (fun c => (c.key, 1))

/-- The browser-manager state observed by one pass of `_prune_loop`:
the keys holding a live context, the `last_activity` timestamps
(`self.last_activity.get(key, 0)` folded into a total map defaulting to `0`),
and the free count `_value` of each credential's semaphore. -/
structure BrowserPruneState where
  contexts : List String
  last_activity : String → Rat
  semValue : String → Int

/-- The eligibility test of `_prune_loop`:
`now - last_active > self.prune_timeout` and `self.semaphores[key]._value > 0`. -/
def prune_eligible (st : BrowserPruneState) (now prune_timeout : Rat) (k : String) : Bool :=
  decide (now - st.last_activity k > prune_timeout) && decide (st.semValue k > 0)

/-- One pass of the body of `_prune_loop`: every eligible context is popped
and closed; the rest remain. -/
def prune_pass (st : BrowserPruneState) (now prune_timeout : Rat) : BrowserPruneState :=
  { st with contexts :=
      st.contexts.filter (fun k => !prune_eligible st now prune_timeout k) }

/-! ## One credential's session pool as seen by a single worker
(`_worker` lines 179-230 with `_process_request`) -/

/-- The browser-manager state for one credential: the free count of its
`Semaphore(1)`, whether a context currently exists, and a generation counter
bumped by `recreate_context`. -/
structure BrowserCredState where
  semFree : Int
  hasContext : Bool
  contextGen : Nat
deriving DecidableEq, Repr

/-- `BrowserManager.get_context` for one credential in a single-worker run:
`await semaphore.acquire()` blocks forever when the free count is zero
(nobody else will release); otherwise it decrements the count and lazily
creates the context. -/
def get_context (bm : BrowserCredState) : Option BrowserCredState :=
  if bm.semFree ≤ 0 then none
  else some { bm with semFree := bm.semFree - 1, hasContext := true }

/-- `BrowserManager.release_context`: increments the semaphore's free count. -/
def release_context (bm : BrowserCredState) : BrowserCredState :=
  { bm with semFree := bm.semFree + 1 }

/-- `BrowserManager.recreate_context`: closes the old context and creates a
fresh one; it does not touch the semaphore. -/
def recreate_context (bm : BrowserCredState) : BrowserCredState :=
  { bm with hasContext := true, contextGen := bm.contextGen + 1 }

/-- Outcome of one task run through `_worker` lines 179-230 for a single
credential: either the task completes (and the worker's `finally` releases
the context), or an `acquire` blocks forever. -/
inductive TaskRunOutcome where
  | completed (bm : BrowserCredState) (usage : Int) (recreations : Nat)
  | blockedOuterAcquire (bm : BrowserCredState) (usage : Int) (recreations : Nat)
  | blockedRecycleAcquire (bm : BrowserCredState) (usage : Int) (recreations : Nat)
deriving DecidableEq, Repr

/-- One task processed end to end by a single worker on one credential:
the worker's `get_context` (line 179), then `_process_request` — usage
increment, the recycling check `current_usage > max_requests_per_context`
with client cleanup, `recreate_context`, a second `get_context` (line 319)
and the usage reset — and finally the worker's single `release_context`
(line 227).  `usage` is `credential_usage[key]`, `recreations` counts calls
to `recreate_context`. -/
def run_one_task (s : Settings) (bm : BrowserCredState) (usage : Int)
    (recreations : Nat) : TaskRunOutcome :=
  match get_context bm with
  | none => TaskRunOutcome.blockedOuterAcquire bm usage recreations
  | some bm =>
    let usage := usage + 1
    if usage > s.max_requests_per_context then
      let bm := recreate_context bm
      let recreations := recreations + 1
      match get_context bm with
      | none => TaskRunOutcome.blockedRecycleAcquire bm usage recreations
      | some bm =>
        -- usage counter reset, client recreated, request processed,
        -- then the worker's `finally` releases once
        TaskRunOutcome.completed (release_context bm) 0 recreations
    else
      TaskRunOutcome.completed (release_context bm) usage recreations

/-- The pool state for one credential right after `BrowserManager.initialize`:
semaphore free count `1`, no context yet. -/
def initBrowserCredState : BrowserCredState :=
  { semFree := 1, hasContext := false, contextGen := 0 }

/-! ## The allocator as a concurrent transition system

Worker steps at the granularity of the code's own critical sections: each
`async with self._lock` block of `CredentialManager` is one atomic step, and
the asyncio scheduler may interleave workers between blocks (the worker
performs `get_available_credential` and `mark_busy` as two separate lock
acquisitions). -/

/-- The phase of one worker with respect to the allocator protocol. -/
inductive WorkerPhase where
  | idle
  | granted (k : String)
  | busy (k : String)
deriving DecidableEq, Repr

/-- Global state: the `active_tasks` counters and each worker's phase. -/
structure AllocSystem where
  active_tasks : String → Int
  workers : List WorkerPhase

/-- Initial state: all counters zero, `n` idle workers. -/
def initAllocSystem (n : Nat) : AllocSystem :=
  { active_tasks := fun _ => 0, workers := List.replicate n WorkerPhase.idle }

/-- One worker step.  `acquire` is a call to `get_available_credential`
returning credential `c`: whichever selection branch runs, a returned
credential satisfies `has_capacity`, and the call does not change the
counters.  `markBusy` / `markFree` are the corresponding
`CredentialManager` methods. -/
inductive AllocStep (credentials : List Credential) (maxC : Int) :
    AllocSystem → AllocSystem → Prop where
  | acquire (st : AllocSystem) (i : Nat) (c : Credential) :
      st.workers.get? i = some WorkerPhase.idle →
      c ∈ credentials →
      st.active_tasks c.key < maxC →
      AllocStep credentials maxC st
        { st with workers := st.workers.set i (WorkerPhase.granted c.key) }
  | markBusy (st : AllocSystem) (i : Nat) (k : String) :
      st.workers.get? i = some (WorkerPhase.granted k) →
      AllocStep credentials maxC st
        { active_tasks := updateMap st.active_tasks k (st.active_tasks k + 1)
          workers := st.workers.set i (WorkerPhase.busy k) }
  | markFree (st : AllocSystem) (i : Nat) (k : String) :
      st.workers.get? i = some (WorkerPhase.busy k) →
      AllocStep credentials maxC st
        { active_tasks :=
            if st.active_tasks k > 0 then
              updateMap st.active_tasks k (st.active_tasks k - 1)
            else st.active_tasks
          workers := st.workers.set i WorkerPhase.idle }

/-- Reachability under worker interleavings. -/
def AllocReachable (credentials : List Credential) (maxC : Int) (n : Nat)
    (st : AllocSystem) : Prop :=
  Relation.ReflTransGen (AllocStep credentials maxC) (initAllocSystem n) st

/-- The repaired protocol: selection and `mark_busy` fused into one atomic
step (one critical section), acting on the `active_tasks` counters alone. -/
inductive AtomicAllocStep (credentials : List Credential) (maxC : Int) :
    (String → Int) → (String → Int) → Prop where
  | acquireMarkBusy (a : String → Int) (c : Credential) :
      c ∈ credentials →
      a c.key < maxC →
      AtomicAllocStep credentials maxC a (updateMap a c.key (a c.key + 1))
  | markFree (a : String → Int) (k : String) :
      AtomicAllocStep credentials maxC a
        (if a k > 0 then updateMap a k (a k - 1) else a)

/-- Reachability for the atomic protocol from the all-zero counters. -/
def AtomicAllocReachable (credentials : List Credential) (maxC : Int)
    (a : String → Int) : Prop :=
  Relation.ReflTransGen (AtomicAllocStep credentials maxC) (fun _ => 0) a

/-! ## Call sequences of `mark_busy` / `mark_free` -/

/-- A call to one of the two marking methods of `CredentialManager`. -/
inductive MarkOp where
  | busy (k : String)
  | free (k : String)
deriving DecidableEq, Repr

/-- Execute one marking call. -/
def applyMarkOp (st : CredentialManagerState) : MarkOp → CredentialManagerState
  | MarkOp.busy k => mark_busy st k
  | MarkOp.free k => mark_free st k

/-- Execute a sequence of marking calls in order. -/
def applyMarkOps (st : CredentialManagerState) (ops : List MarkOp) :
    CredentialManagerState :=
  ops.foldl applyMarkOp st

/-! ## Concrete fixtures used to instantiate the theorems -/

/-- A first configured credential, key `acct-1`. -/
def credA : Credential := { email := "a", password := "pa", key := "acct-1" }

/-- A second configured credential, key `acct-2`. -/
def credB : Credential := { email := "b", password := "pb", key := "acct-2" }

/-- A plain request. -/
def reqT1 : Request := { task_id := "t1", prompt := "hello" }

/-- A plain request picked up under saturation. -/
def reqT3 : Request := { task_id := "t3", prompt := "hello" }

/-- A request pinned to a credential key that no configured credential has. -/
def reqGhost : Request :=
  { task_id := "t9", prompt := "hello", account_id := some "ghost" }

/-- A one-credential manager state whose only credential is at capacity. -/
def cmSaturated : CredentialManagerState :=
  { credentials := [credA], mode := "random", usage_count := fun _ => 0,
    active_tasks := fun _ => 1, round_robin_index := 0 }

/-- A two-credential manager state where `acct-2` is at capacity (one active
task) while `acct-1` is idle. -/
def cmPinnedBusy : CredentialManagerState :=
  { credentials := [credA, credB], mode := "random", usage_count := fun _ => 0,
    active_tasks := fun k => if k = "acct-2" then 1 else 0, round_robin_index := 0 }

/-- A terminal result recorded by the worker for a task that started at loop
time `3998` and completed at loop time `4000`: the stored `processing_time`
is the duration `4000 - 3998 = 2`. -/
def resultQuick : TaskResult :=
  { task_id := "t2", success := true, result := some { success := true },
    credential_key := some "acct-1", processing_time := some 2 }

/-- Settings with `max_requests_per_context = 2` (the spec's
`max_requests_per_session`). -/
def settingsRecycle : Settings := { max_requests_per_context := 2 }

/-- A prune-loop state where `acct-1` has a live context, has been idle since
time `0`, and its guard is held by a worker (semaphore free count `0`). -/
def pruneHeld : BrowserPruneState :=
  { contexts := ["acct-1"], last_activity := fun _ => 0, semValue := fun _ => 0 }

/-! ## Helper lemmas -/

/-- Looking up a key right after storing it yields the stored value
(the overwrite branch of `dictSet`). -/
theorem find?_map_overwrite (k : String) (v : TaskResult) :
    ∀ d : List (String × TaskResult), d.any (fun p => p.1 == k) = true →
      (d.map (fun p => if p.1 == k then (k, v) else p)).find? (fun p => p.1 == k) =
        some (k, v)
  | [], h => by simp at h
  | p :: rest, h => by
    by_cases hp : p.1 = k
    · simp [hp, List.find?]
    · have hrest : rest.any (fun q => q.1 == k) = true := by
        simpa [hp] using h
      simpa [hp] using find?_map_overwrite k v rest hrest

/-- Looking up a key right after storing it yields the stored value
(the append branch of `dictSet`). -/
theorem find?_append_new (k : String) (v : TaskResult)
    (d : List (String × TaskResult)) (h : d.any (fun p => p.1 == k) = false) :
    (d ++ [(k, v)]).find? (fun p => p.1 == k) = some (k, v) := by
  rw [List.find?_append]
  have hnone : d.find? (fun p => p.1 == k) = none :=
    List.find?_eq_none.mpr (by simpa using List.any_eq_false.mp h)
  simp [hnone, List.find?]

/-- `d[k] = v` followed by `d.get(k)` returns `v`. -/
theorem dictGet_dictSet (d : List (String × TaskResult)) (k : String) (v : TaskResult) :
    dictGet (dictSet d k v) k = some v := by
  unfold dictGet dictSet
  by_cases h : d.any (fun p => p.1 == k) = true
  · rw [if_pos h, find?_map_overwrite k v d h]; rfl
  · rw [if_neg h, find?_append_new k v d (by simp only [Bool.not_eq_true] at h; exact h)]
    rfl

/-- After `d[k] = v`, the key `k` is among the dict's keys. -/
theorem mem_keys_dictSet (d : List (String × TaskResult)) (k : String) (v : TaskResult) :
    k ∈ (dictSet d k v).map (fun p => p.1) := by
  have h := dictGet_dictSet d k v
  unfold dictGet at h
  cases hf : (dictSet d k v).find? (fun q => q.1 == k) with
  | none => rw [hf] at h; simp at h
  | some p =>
    have hmem := List.mem_of_find?_eq_some hf
    have hkey := List.find?_some hf
    exact List.mem_map.mpr ⟨p, hmem, by simpa using hkey⟩

/-- One marking call preserves nonnegativity of every active-task counter. -/
theorem applyMarkOp_nonneg (st : CredentialManagerState) (op : MarkOp)
    (h : ∀ k, 0 ≤ st.active_tasks k) (k : String) :
    0 ≤ (applyMarkOp st op).active_tasks k := by
  cases op with
  | busy k' =>
    simp only [applyMarkOp, mark_busy, updateMap]
    by_cases hk : k = k'
    · have := h k'; simp [hk]; omega
    · simp [hk]; exact h k
  | free k' =>
    simp only [applyMarkOp, mark_free]
    by_cases hpos : st.active_tasks k' > 0
    · rw [if_pos hpos]
      simp only [updateMap]
      by_cases hk : k = k'
      · simp [hk]; omega
      · simp [hk]; exact h k
    · rw [if_neg hpos]; exact h k

/-- Any sequence of marking calls preserves nonnegativity of every
active-task counter. -/
theorem applyMarkOps_nonneg (ops : List MarkOp) :
    ∀ st : CredentialManagerState, (∀ k, 0 ≤ st.active_tasks k) →
      ∀ k, 0 ≤ (applyMarkOps st ops).active_tasks k := by
  induction ops with
  | nil => intro st h k; simpa [applyMarkOps] using h k
  | cons op rest ih =>
    intro st h k
    simp only [applyMarkOps, List.foldl_cons]
    exact ih (applyMarkOp st op) (applyMarkOp_nonneg st op h) k

/-! ## Claim theorems -/

/-- **C5.** The prune step never evicts a session whose per-credential
concurrency guard is not fully free: whenever a worker holds the guard of
credential `k` (semaphore free count `0`, the guard being a `Semaphore(1)`)
while the idle threshold elapses and a prune pass runs, the session for `k`
remains present; in general a session is evicted exactly when it is idle past
the threshold **and** its guard is free. -/
theorem prune_never_evicts_held_session (st : BrowserPruneState)
    (now prune_timeout : Rat) (k : String)
    (hheld : st.semValue k = 0) (hmem : k ∈ st.contexts) :
    k ∈ (prune_pass st now prune_timeout).contexts ∧
    ∀ k', k' ∈ st.contexts →
      (k' ∉ (prune_pass st now prune_timeout).contexts ↔
        (now - st.last_activity k' > prune_timeout ∧ st.semValue k' > 0)) := by
  constructor
  · refine List.mem_filter.mpr ⟨hmem, ?_⟩
    simp [prune_eligible, hheld]
  · intro k' hk'
    have hiff : k' ∈ (prune_pass st now prune_timeout).contexts ↔
        (!prune_eligible st now prune_timeout k') = true := by
      constructor
      · intro h; exact (List.mem_filter.mp h).2
      · intro h; exact List.mem_filter.mpr ⟨hk', h⟩
    rw [not_congr hiff]
    simp [prune_eligible, lt_sub_iff_add_lt]

/-- Witness for C5: a held guard (`pruneHeld`) survives a prune pass run far
past the idle threshold. -/
theorem prune_never_evicts_held_session_witness :
    "acct-1" ∈ (prune_pass pruneHeld 1000 300).contexts :=
  (prune_never_evicts_held_session pruneHeld 1000 300 "acct-1" rfl (by simp [pruneHeld])).1

/-- **C6.** A pinned acquire whose key matches a configured credential
returns exactly that credential when it has spare capacity and `None`
otherwise; any returned credential carries the pinned key, never another
credential, regardless of other credentials' availability. -/
theorem pinned_key_exact_credential_or_none (s : Settings)
    (st : CredentialManagerState) (rand : Nat) (mode_override : Option String)
    (k : String) (c : Credential)
    (hk : k ≠ "") (hfind : findCredential st.credentials k = some c) :
    (get_available_credential s st rand mode_override (some k)).1 =
      (if has_capacity s st c then some c else none) ∧
    c.key = k := by
  have hkey : c.key = k := by
    have h := List.find?_some (by simpa [findCredential] using hfind)
    simpa using h
  have htruthy : strTruthy (some k) = true := by simp [strTruthy, hk]
  refine ⟨?_, hkey⟩
  by_cases hc : has_capacity s st c <;>
    simp [get_available_credential, htruthy, hfind, hc]

/-- Witness for C6: the spec scenario — a request pinned to `acct-2` while
`acct-2` is at capacity and `acct-1` is idle yields `None`, not `acct-1`. -/
theorem pinned_key_exact_credential_or_none_witness :
    (get_available_credential { } cmPinnedBusy 0 none (some "acct-2")).1 = none ∧
    credB.key = "acct-2" := by
  have h := pinned_key_exact_credential_or_none { } cmPinnedBusy 0 none "acct-2" credB
    (by decide) rfl
  exact ⟨by rw [h.1]; decide, h.2⟩

/-- **C10.** The per-credential active-task counter is never negative:
`mark_free` on a credential whose counter is `0` leaves it at `0`, and every
sequence of `mark_busy` / `mark_free` calls from the initial state (including
unbalanced ones) keeps every counter nonnegative. -/
theorem active_tasks_never_negative (st : CredentialManagerState)
    (credentials : List Credential) (mode : String) (ops : List MarkOp)
    (k : String) (hzero : st.active_tasks k = 0) :
    (mark_free st k).active_tasks k = 0 ∧
    ∀ k', 0 ≤ (applyMarkOps (initCredentialManager credentials mode) ops).active_tasks k' := by
  constructor
  · unfold mark_free
    rw [if_neg (by omega)]
    exact hzero
  · exact applyMarkOps_nonneg ops (initCredentialManager credentials mode)
      (fun _ => le_refl 0)

/-- Witness for C10: two frees then a busy on a fresh manager never drive the
counter negative, and a free at zero stays at zero. -/
theorem active_tasks_never_negative_witness :
    (mark_free (initCredentialManager [credA] "random") "acct-1").active_tasks "acct-1" = 0 ∧
    ∀ k', 0 ≤ (applyMarkOps (initCredentialManager [credA] "random")
      [MarkOp.free "acct-1", MarkOp.free "acct-1", MarkOp.busy "acct-1"]).active_tasks k' :=
  active_tasks_never_negative (initCredentialManager [credA] "random") [credA] "random"
    [MarkOp.free "acct-1", MarkOp.free "acct-1", MarkOp.busy "acct-1"] "acct-1" rfl

/-- **C9 (counterexample).** Immediately after submission — before any worker
has touched the task, so it is not terminal — `get_result` returns the stored
placeholder `TaskResult` instead of `None`. -/
theorem get_result_placeholder_counterexample :
    get_result (enqueue_request initQueueManager reqT1).2 "t1" =
      some { task_id := "t1", success := false, result := none, error := none,
             credential_key := none, processing_time := none } ∧
    resultReady { task_id := "t1", success := false, result := none, error := none,
                  credential_key := none, processing_time := none } = false := by
  exact ⟨rfl, rfl⟩

/-- **C9 (amended).** For every submitted task, `get_result` right after
enqueue returns the non-terminal placeholder (`success = false`,
`error = None`, `result = None`) rather than `None`; terminal results are
recognised in-band by the readiness test `result.success or result.error`
(applied by `wait_for_result` and `get_completed_result`), which the
placeholder fails. -/
theorem get_result_after_enqueue (st : QueueManagerState) (r : Request) :
    get_result (enqueue_request st r).2 r.task_id =
      some { task_id := r.task_id, success := false, result := none, error := none,
             credential_key := none, processing_time := none } ∧
    resultReady { task_id := r.task_id, success := false, result := none, error := none,
                  credential_key := none, processing_time := none } = false := by
  constructor
  · simp only [enqueue_request, get_result]
    exact dictGet_dictSet st.task_results r.task_id _
  · rfl

/-- **C4 (counterexample).** A task pinned to the unknown credential key
`ghost` is not rejected at submission: it is placed on the queue, appears in
the queue stats (`pending_tasks`), and is counted in `total_enqueued`; only a
later allocator call returns `None` for its key. -/
theorem unknown_pinned_key_counterexample :
    ("t9", reqGhost) ∈ (enqueue_request initQueueManager reqGhost).2.queue ∧
    "t9" ∈ pending_tasks (enqueue_request initQueueManager reqGhost).2 ∧
    (enqueue_request initQueueManager reqGhost).2.total_enqueued = 1 ∧
    (get_available_credential { } (initCredentialManager [credA] "random") 0 none
      (some "ghost")).1 = none := by
  refine ⟨?_, ?_, rfl, rfl⟩ <;> decide

/-- **C4 (amended).** Submission performs no credential-key validation: every
task — in particular one pinned to an unknown key — is enqueued, recorded as
a placeholder in the queue stats, and counted; the unknown key surfaces only
at allocation time, where `get_available_credential` returns `None`. -/
theorem unknown_pinned_key_enqueued (qst : QueueManagerState) (r : Request)
    (s : Settings) (cm : CredentialManagerState) (rand : Nat)
    (mode_override : Option String) (k : String)
    (hk : k ≠ "") (hfind : findCredential cm.credentials k = none) :
    (r.task_id, r) ∈ (enqueue_request qst r).2.queue ∧
    r.task_id ∈ pending_tasks (enqueue_request qst r).2 ∧
    (enqueue_request qst r).2.total_enqueued = qst.total_enqueued + 1 ∧
    (get_available_credential s cm rand mode_override (some k)).1 = none := by
  refine ⟨?_, ?_, rfl, ?_⟩
  · simp [enqueue_request]
  · simp only [enqueue_request, pending_tasks]
    exact mem_keys_dictSet qst.task_results r.task_id _
  · have htruthy : strTruthy (some k) = true := by simp [strTruthy, hk]
    simp [get_available_credential, htruthy, hfind]

/-- Witness for the amended C4, at the `ghost` fixture. -/
theorem unknown_pinned_key_enqueued_witness :
    (reqGhost.task_id, reqGhost) ∈ (enqueue_request initQueueManager reqGhost).2.queue ∧
    reqGhost.task_id ∈ pending_tasks (enqueue_request initQueueManager reqGhost).2 ∧
    (enqueue_request initQueueManager reqGhost).2.total_enqueued =
      initQueueManager.total_enqueued + 1 ∧
    (get_available_credential { } (initCredentialManager [credA, credB] "random") 0 none
      (some "ghost")).1 = none :=
  unknown_pinned_key_enqueued initQueueManager reqGhost { }
    (initCredentialManager [credA, credB] "random") 0 none "ghost" (by decide) rfl

/-- **C7 (counterexample).** With `max_concurrent_per_credential = 2`, the
guard for `acct-1` is still created as a `Semaphore(1)`: capacity `1`, not
the configured `2`. -/
theorem semaphore_capacity_counterexample :
    init_semaphores [credA] = [("acct-1", 1)] ∧
    ¬ ((1 : Int) =
        ({ max_concurrent_per_credential := 2 } : Settings).max_concurrent_per_credential) := by
  exact ⟨rfl, by decide⟩

/-- **C7 (amended).** `initialize` creates every per-credential guard with
capacity exactly `1`, regardless of the configured
`max_concurrent_per_credential`; the capacity equals the configured value
only when that value is `1` (its default). -/
theorem semaphore_capacity_always_one (s : Settings) (credentials : List Credential)
    (c : Credential) (hc : c ∈ credentials) :
    (c.key, (1 : Int)) ∈ init_semaphores credentials ∧
    (∀ p ∈ init_semaphores credentials, p.2 = 1) ∧
    ((1 : Int) = s.max_concurrent_per_credential ↔
      s.max_concurrent_per_credential = 1) := by
  refine ⟨List.mem_map.mpr ⟨c, hc, rfl⟩, ?_, by omega⟩
  intro p hp
  obtain ⟨c', _, rfl⟩ := List.mem_map.mp hp
  rfl

/-- Witness for the amended C7, at a two-credential configuration with
default settings. -/
theorem semaphore_capacity_always_one_witness :
    (credA.key, (1 : Int)) ∈ init_semaphores [credA, credB] ∧
    (∀ p ∈ init_semaphores [credA, credB], p.2 = 1) ∧
    ((1 : Int) = ({ } : Settings).max_concurrent_per_credential ↔
      ({ } : Settings).max_concurrent_per_credential = 1) :=
  semaphore_capacity_always_one { } [credA, credB] credA (by decide)

/-- **C8 (code bug).** `clear_completed_tasks` subtracts the stored *duration*
`processing_time` from the current loop time instead of comparing against a
completion timestamp: a result whose task ran from loop time `3998` to `4000`
(so `processing_time = 2`) is purged by a pass at loop time `4001` — one
second after completion, far inside the `3600`-second retention window —
while the non-terminal placeholder (no `processing_time`) is indeed kept. -/
theorem purge_compares_duration_not_completion :
    (clear_completed_tasks
      { initQueueManager with task_results := [("t2", resultQuick)] }
      4001 3600).task_results = [] ∧
    ((4001 : Rat) - 4000 < 3600) ∧
    (clear_completed_tasks (enqueue_request initQueueManager reqT1).2
      4001 3600).task_results =
      (enqueue_request initQueueManager reqT1).2.task_results := by
  have h2 : ((2 : Rat) == 0) = false := rfl
  have hc : purgeCondition 4001 3600 resultQuick = true := by
    simp only [purgeCondition, resultQuick, h2, Bool.false_eq_true, if_false,
      decide_eq_true_eq]
    norm_num
  refine ⟨?_, by norm_num, by decide⟩
  simp [clear_completed_tasks, hc]

/-- **C3 (code bug).** With `max_requests_per_context = 2` and three
sequential tasks on one credential: tasks 1 and 2 complete and the usage
counter reaches 2; on task 3 the counter reaches `3 > 2` and the recycle path
runs — the context is recreated exactly once, but the recycle path's
`get_context` then blocks forever on the `Semaphore(1)` the worker already
holds, so the usage counter is never reset to `0` and the over-limit task
never completes. -/
theorem recycle_path_blocks_third_task :
    run_one_task settingsRecycle initBrowserCredState 0 0 =
      TaskRunOutcome.completed
        { semFree := 1, hasContext := true, contextGen := 0 } 1 0 ∧
    run_one_task settingsRecycle
        { semFree := 1, hasContext := true, contextGen := 0 } 1 0 =
      TaskRunOutcome.completed
        { semFree := 1, hasContext := true, contextGen := 0 } 2 0 ∧
    run_one_task settingsRecycle
        { semFree := 1, hasContext := true, contextGen := 0 } 2 0 =
      TaskRunOutcome.blockedRecycleAcquire
        { semFree := 0, hasContext := true, contextGen := 1 } 3 1 := by
  refine ⟨?_, ?_, ?_⟩ <;> decide

/-- **C2 (code bug).** When every credential is at capacity the allocator
returns `None`, but the worker's wait path then calls
`CredentialManager.wait_for_available`, which the class does not define: the
`AttributeError` is caught by the worker's generic handler, which records the
task as *failed* and increments `total_failed` — saturation alone produces an
error result instead of a wait-and-retry. -/
theorem saturation_records_failure_instead_of_waiting :
    (get_available_credential { } cmSaturated 0 none none).1 = none ∧
    ("wait_for_available" ∈ credentialManagerAttrs → False) ∧
    worker_acquire_iteration { } cmSaturated 0 reqT3 =
      AcquireOutcome.raised waitForAvailableError ∧
    worker_handle_acquisition { } cmSaturated 0 initQueueManager "t3" reqT3 1 =
      TaskHandling.recordedFailed
        (worker_store_exception initQueueManager "t3" waitForAvailableError 1) ∧
    (worker_store_exception initQueueManager "t3" waitForAvailableError 1).total_failed = 1 ∧
    get_result (worker_store_exception initQueueManager "t3" waitForAvailableError 1) "t3" =
      some { task_id := "t3", success := false, error := some waitForAvailableError,
             processing_time := some 1 } := by
  refine ⟨rfl, by decide, rfl, rfl, rfl, rfl⟩

/-- **C1 (counterexample).** At the code's actual interleaving granularity —
`get_available_credential` and `mark_busy` are two separate critical sections
of the worker — two workers can both pass the capacity check before either
increments: with one credential and `max_concurrent_per_credential = 1`
(the default settings), a reachable state has `active_tasks = 2 > 1`. -/
theorem capacity_invariant_counterexample :
    ∃ st : AllocSystem, AllocReachable [credA] 1 2 st ∧
      ({ } : Settings).max_concurrent_per_credential < st.active_tasks "acct-1" := by
  have hchain := Relation.ReflTransGen.head
    (@AllocStep.acquire [credA] 1 (initAllocSystem 2) 0 credA rfl (by decide) (by decide))
    (Relation.ReflTransGen.head
      (AllocStep.acquire _ 1 credA rfl (by decide) (by decide))
      (Relation.ReflTransGen.head
        (AllocStep.markBusy _ 0 "acct-1" rfl)
        (Relation.ReflTransGen.single
          (AllocStep.markBusy _ 1 "acct-1" rfl))))
  exact ⟨_, hchain, by decide⟩

/-- **C1 (amended).** If each successful selection is fused with its
`mark_busy` into one atomic step (no other worker's selection interleaves
between the capacity check and the increment), then from the all-zero
initial counters every reachable counter map satisfies
`active_tasks[k] ≤ max_concurrent_per_credential` for every key `k`, for any
nonnegative configured capacity. -/
theorem capacity_invariant_atomic (credentials : List Credential) (maxC : Int)
    (hmax : 0 ≤ maxC) (a : String → Int)
    (hreach : AtomicAllocReachable credentials maxC a) :
    ∀ k, a k ≤ maxC := by
  unfold AtomicAllocReachable at hreach
  induction hreach with
  | refl => intro k; simpa using hmax
  | @tail b fin hsteps hstep ih =>
    intro k
    cases hstep with
    | acquireMarkBusy c hc hcap =>
      simp only [updateMap]
      by_cases hk : k = c.key
      · rw [if_pos hk]; omega
      · rw [if_neg hk]; exact ih k
    | markFree k' =>
      by_cases hpos : b k' > 0
      · rw [if_pos hpos]
        simp only [updateMap]
        by_cases hk : k = k'
        · rw [if_pos hk]; have := ih k'; omega
        · rw [if_neg hk]; exact ih k
      · rw [if_neg hpos]; exact ih k

/-- Witness for the amended C1: one atomic acquire-and-mark on a fresh
single-credential system keeps every counter within the capacity `1`. -/
theorem capacity_invariant_atomic_witness :
    updateMap (fun _ => 0) credA.key (0 + 1) "acct-1" ≤ 1 :=
  capacity_invariant_atomic [credA] 1 (by decide) _
    (Relation.ReflTransGen.single
      (AtomicAllocStep.acquireMarkBusy (fun _ => 0) credA (by decide) (by decide)))
    "acct-1"

end Femini
